import Mathlib

/-!
Verification development for the `b1ron/ftdc` repository: a JavaScript BSON
parser and FTDC (Full-Time Diagnostic Data Capture) metrics decompressor.

The repository source `src/decompressor.js` contains two drafts of the
decompressor separated by document markers: the first draft (lines 1-162,
functions `uncompress`, `stripNonNumericFields`, `extractMetricsFromDocument`,
`updateFromArray`) and a second draft (lines 163-319, functions `uncompress`,
`restoreSamples`, `iterateMetricSamples`, `decodeDeltas`, `flattenObject`,
`isValid`, `extractFromObj`).  `src/unnamed/part_000` is the BSON parser
(`parseBSON`, `indexAfterCString`, `addValue`) imported by both drafts.

The module `utils.js` imported by these files is not part of the sources, so
its members (`createBufferReader` with `decodeVarint`, `readTimestamp`,
`validateBuffer`) are modelled from the spec where indicated; the little-endian
scalar readers are translated from the same-named functions present in
`src/parser.js`.

Modelling conventions for the shallow embedding:
* byte buffers are `List Nat` (each entry a byte value 0..255);
* JavaScript `BigInt` is `Int`; JavaScript `number` is `Rat` (exact for the
  integral and short decimal values occurring in these claims; IEEE-754
  rounding is not modelled, no claim depends on it);
* JavaScript sparse arrays (arrays with holes) are `List (Option Int)`;
* thrown exceptions are `Except JsErr`; recursion over nested documents uses
  an explicit fuel argument bounded by `sizeOf`, which dominates the nesting
  depth of the value being traversed.
-/

/-- Error kinds thrown by the translated code.  `chunkTooLarge` and
`metricsCountMismatch` are the two guard errors of the first-draft
`uncompress` (decompressor.js:44-46 and 52-54); `referenceErrorData` models
the JavaScript `ReferenceError` raised at decompressor.js:59, where
`utils.createBufferReader(data)` references the undefined identifier `data`;
the remaining kinds model `RangeError`, `TypeError`, `SyntaxError` and the
BSON/varint errors of the spec. -/
inductive JsErr where
  | outOfRange
  | invalidSize
  | typeError
  | rangeError
  | syntaxError
  | varintTooLong
  | chunkTooLarge
  | metricsCountMismatch
  | referenceErrorData
deriving Repr, DecidableEq

/-- Modelled from the spec: `utils.createBufferReader(...).decodeVarint`
(`utils.js` is absent from the sources).  Spec section 4.2: unsigned LEB128,
7 bits per byte, continuation flag in bit 7, at most 10 bytes, returning
64-bit values; `OutOfRange` when the stream ends mid-varint, `VarintTooLong`
when a 10-byte sequence still has the continuation bit set.  Returns the
decoded value and the unconsumed rest of the stream. -/
def decodeVarintGo : List Nat → Nat → Nat → Nat → Except JsErr (Nat × List Nat)
  | [], _, _, _ => .error .outOfRange
  | b :: rest, shift, acc, count =>
    if 9 ≤ count ∧ 128 ≤ b then .error .varintTooLong
    else if b < 128 then .ok ((acc + b * 2 ^ shift) % 2 ^ 64, rest)
    else decodeVarintGo rest (shift + 7) (acc + b % 128 * 2 ^ shift) (count + 1)

/-- Entry point of the modelled varint reader (spec section 4.2). -/
def decodeVarint (bytes : List Nat) : Except JsErr (Nat × List Nat) :=
  decodeVarintGo bytes 0 0 0

/-- `decodeDeltas` (decompressor.js:253-271, second draft), with the reader
state made explicit.  The source loop runs while the reader is non-empty; an
iteration with a positive pending zero count pushes one zero without
consuming input, so — the reader being unchanged and non-empty — a pending
run of `zeroCount` zeros is emitted in full over the next `zeroCount`
iterations, which is how it appears below; when the reader is empty the loop
exits immediately, discarding any pending run.  Otherwise a varint is read,
and a zero varint additionally reads the next run count.  The fuel argument
only bounds the number of varint-reading iterations, each of which consumes
at least one byte, so `bytes.length + 1` initial fuel always suffices. -/
def decodeDeltasLoop : Nat → List Nat → Nat → Except JsErr (List Int)
  | 0, _, _ => .error .outOfRange  -- fuel exhausted: unreachable from decodeDeltas
  | fuel + 1, bytes, zeroCount =>
    if bytes.isEmpty then .ok []
    else
      match decodeVarint bytes with
      | .error e => .error e
      | .ok (v, rest) =>
        if v = 0 then
          match decodeVarint rest with
          | .error e => .error e
          | .ok (k, rest2) =>
            match decodeDeltasLoop fuel rest2 k with
            | .error e => .error e
            | .ok tail => .ok (List.replicate zeroCount 0 ++ ((0 : Int) :: tail))
        else
          match decodeDeltasLoop fuel rest 0 with
          | .error e => .error e
          | .ok tail => .ok (List.replicate zeroCount 0 ++ ((v : Int) :: tail))

/-- `decodeDeltas` of the second draft: initial zero count is 0. -/
def decodeDeltas (bytes : List Nat) : Except JsErr (List Int) :=
  decodeDeltasLoop (bytes.length + 1) bytes 0

/-- The delta-decompression loop of the first-draft `uncompress`
(decompressor.js:62-76): fills exactly `metricsCount * sampleCount` cells in
flat order `i * sampleCount + j`, carrying the pending-zero count across
cells.  (In the source the reader is built at decompressor.js:59 from the
undefined identifier `data`; the loop body itself is translated here over an
explicit byte stream.) -/
def decompressDeltasGo : Nat → List Nat → Nat → Except JsErr (List Int)
  | 0, _, _ => .ok []
  | n + 1, bytes, zeroOutCount =>
    if 0 < zeroOutCount then
      match decompressDeltasGo n bytes (zeroOutCount - 1) with
      | .error e => .error e
      | .ok tail => .ok ((0 : Int) :: tail)
    else
      match decodeVarint bytes with
      | .error e => .error e
      | .ok (delta, rest) =>
        if delta = 0 then
          match decodeVarint rest with
          | .error e => .error e
          | .ok (k, rest2) =>
            match decompressDeltasGo n rest2 k with
            | .error e => .error e
            | .ok tail => .ok ((0 : Int) :: tail)
        else
          match decompressDeltasGo n rest zeroOutCount with
          | .error e => .error e
          | .ok tail => .ok ((delta : Int) :: tail)

/-- First-draft delta decompression over the full matrix (decompressor.js:62-76). -/
def decompressDeltas (bytes : List Nat) (metricsCount sampleCount : Nat) :
    Except JsErr (List Int) :=
  decompressDeltasGo (metricsCount * sampleCount) bytes 0

/-- The two restore loops of the first-draft `uncompress`
(decompressor.js:84-93): add each metric's baseline to its first cell, then
replace each later cell by the running cumulative sum, in place, ascending in
`j`.  Indices outside the list (never reached when the delta list has exactly
`metricsCount * sampleCount` entries, as produced by the decode loop) read 0. -/
def restoreCumulative (deltas : List Int) (metrics : List Int)
    (metricsCount sampleCount : Nat) : List Int :=
  let withBase := (List.range metricsCount).foldl
    (fun d i => d.set (i * sampleCount)
      (d.getD (i * sampleCount) 0 + metrics.getD i 0)) deltas
  (List.range metricsCount).foldl
    (fun d i => (List.range (sampleCount - 1)).foldl
      (fun d j =>
        d.set (i * sampleCount + (j + 1))
          (d.getD (i * sampleCount + (j + 1)) 0 + d.getD (i * sampleCount + j) 0)) d)
    withBase

/-- JavaScript array element assignment `a[i] = v` on a possibly-sparse array:
extends with holes (`none`) when `i` is beyond the end. -/
def jsSet (a : List (Option Int)) (i : Nat) (v : Int) : List (Option Int) :=
  if i < a.length then a.set i (some v)
  else a ++ List.replicate (i - a.length) none ++ [some v]

/-- `restoreSamples` (decompressor.js:221-238, second draft).  For each metric
`i` it writes `restored[offset] = deltas[offset] + metrics[i]` and, for
`j ≥ 1`, `restored[offset+j] = deltas[offset+j] + deltas[offset+j-1]`,
raising `RangeError` when either delta read is `undefined` (and `TypeError`
when the first read is `undefined`, since `undefined + BigInt` throws). -/
def restoreSamples (deltas : List Int) (metrics : List Int) (numSamples : Nat) :
    Except JsErr (List (Option Int)) :=
  (List.range metrics.length).foldlM
    (fun restored i => do
      let offset := i * numSamples
      let restored ←
        match deltas.get? offset with
        | none => .error .typeError
        | some d => pure (jsSet restored offset (d + metrics.getD i 0))
      (List.range (numSamples - 1)).foldlM
        (fun restored j =>
          let index := offset + (j + 1)
          match deltas.get? index, deltas.get? (index - 1) with
          | some a, some b => pure (jsSet restored index (a + b))
          | _, _ => .error .rangeError)
        restored)
    ([] : List (Option Int))

/-- `iterateMetricSamples` (decompressor.js:240-251, second draft): for each
sample index builds the row of restored values at `j * numSamples + i`;
reading a hole or past the end yields `undefined` (`none`). -/
def iterateMetricSamples (restored : List (Option Int)) (numMetrics numSamples : Nat) :
    List (List (Option Int)) :=
  (List.range numSamples).map (fun i =>
    (List.range numMetrics).map (fun j =>
      ((restored.get? (j * numSamples + i)).join)))

/-! ## Claims C1, C2, C6: delta decoding and cumulative restoration -/

/-- Claim C1.  The claim states that the decoder's restored values satisfy
`restored[m,0] = base[m] + delta[m,0]` and, for `s ≥ 1`,
`restored[m,s] = restored[m,s-1] + delta[m,s]`.  The second-draft
`restoreSamples` (decompressor.js:221-238) instead computes
`restored[m,s] = delta[m,s] + delta[m,s-1]` for `s ≥ 1`: with base 100 and
deltas `[5, 3]` it returns `[105, 8]`, while the claimed recurrence gives
`[105, 108]` — which is exactly what the first-draft in-place loops
(decompressor.js:84-93) produce. -/
theorem restoreSamples_breaks_cumulative_recurrence :
    restoreSamples [5, 3] [100] 2 = .ok [some 105, some 8] ∧
    restoreCumulative [5, 3] [100] 1 2 = [105, 108] ∧
    (8 : Int) ≠ 105 + 3 := by
  refine ⟨by rfl, by rfl, by decide⟩

/-- Claim C2.  The claim states that a zero varint followed by count `k` always
expands to `k + 1` zero deltas, and that the stream `00 05 01 00 06` decodes
to the 14-element list `[0,0,0,0,0,0,1,0,0,0,0,0,0,0]`.  The second-draft
`decodeDeltas` (decompressor.js:253-271) stops as soon as the reader is empty,
discarding a pending zero run at end of stream: on that very byte stream it
returns only 8 elements.  The first-draft loop (decompressor.js:62-76), which
is bounded by the declared cell count instead of the stream, produces the
claimed 14-element expansion. -/
theorem decodeDeltas_drops_trailing_zero_run :
    decodeDeltas [0, 5, 1, 0, 6] = .ok [0, 0, 0, 0, 0, 0, 1, 0] ∧
    decompressDeltas [0, 5, 1, 0, 6] 1 14 =
      .ok [0, 0, 0, 0, 0, 0, 1, 0, 0, 0, 0, 0, 0, 0] := by
  exact ⟨by rfl, by rfl⟩

/-- Claim C6.  The claim states that when every delta is zero, every restored sample
equals the reference base.  In the second-draft `restoreSamples`
(decompressor.js:221-238), with base 100 and all-zero deltas over 2 samples,
sample 0 is 100 but sample 1 is `delta[1] + delta[0] = 0`, not the base; the
first-draft loops (decompressor.js:84-93) return the base for every sample. -/
theorem restoreSamples_breaks_delta_identity :
    restoreSamples [0, 0] [100] 2 = .ok [some 100, some 0] ∧
    restoreCumulative [0, 0] [100] 1 2 = [100, 100] ∧
    (0 : Int) ≠ 100 := by
  exact ⟨by rfl, by rfl, by decide⟩

/-! ## BSON values and little-endian scalar readers -/

/-- JavaScript values as produced by `parseBSON` (src/unnamed/part_000) and
consumed by the decompressor drafts.  `num` holds a JavaScript number as an
exact rational (finite doubles and int32s); `nonFinite` covers NaN and the
infinities; `date` holds milliseconds since epoch; `undefinedVal` is JavaScript
`undefined`; documents are ordered association lists. -/
inductive JSValue where
  | num (q : Rat)
  | nonFinite (isNan : Bool) (neg : Bool)
  | str (s : String)
  | bool (b : Bool)
  | date (ms : Int)
  | null
  | undefinedVal
  | arr (elems : List JSValue)
  | obj (fields : List (String × JSValue))

/-- `Uint8Array.prototype.subarray(start, stop)`: clamps both bounds to the
buffer and yields the empty view when `start ≥ stop`. -/
def jsSubarray (l : List Nat) (start stop : Nat) : List Nat :=
  (l.take stop).drop start

/-- UTF-8 decoding restricted to the ASCII range, which covers every string
occurring in the verified inputs (models `TextDecoder('utf-8').decode`). -/
def asciiToString (bytes : List Nat) : String :=
  String.mk (bytes.map Char.ofNat)

/-- One lowercase hex digit, as produced by `toString(16)`. -/
def hexChar (n : Nat) : Char :=
  if n < 10 then Char.ofNat (48 + n) else Char.ofNat (87 + n)

/-- A byte as two lowercase hex digits (`toHex`: `toString(16).padStart(2, 0)`). -/
def byteToHexStr (b : Nat) : String :=
  String.mk [hexChar (b / 16), hexChar (b % 16)]

/-- `toHex` with empty separator over a byte list. -/
def listToHex (bytes : List Nat) : String :=
  String.join (bytes.map byteToHexStr)

/-- The coercion performed by `buffer.subarray(...).map((b) => b.toString(16))`
on a `Uint8Array`: the unpadded hex string of the byte is coerced back to a
number when stored into the typed array (`Number` of a hex-digit string is
`NaN`, hence 0, unless every hex digit is also a decimal digit, in which case
the string is read back in base 10). -/
def byteHexCoerce (b : Nat) : Nat :=
  let hi := b / 16
  let lo := b % 16
  if b < 16 then (if lo < 10 then lo else 0)
  else (if hi < 10 ∧ lo < 10 then hi * 10 + lo else 0)

/-- The value built for a non-returned Binary element
(src/unnamed/part_000:146-147): hex-map the bytes and `join('')`, which
renders each coerced element back in decimal. -/
def hexJoinValue (bytes : List Nat) : String :=
  String.join (bytes.map (fun b => toString (byteHexCoerce b)))

/-- `readUInt32LE` (src/parser.js:89-102; `utils.readUint32LE` is the same
reader): little-endian u32, throwing when the first or last byte is out of
range. -/
def readUint32LE (buffer : List Nat) (offset : Nat := 0) : Except JsErr Nat :=
  if offset + 3 < buffer.length then
    .ok (buffer.getD offset 0 + buffer.getD (offset + 1) 0 * 2 ^ 8 +
      buffer.getD (offset + 2) 0 * 2 ^ 16 + buffer.getD (offset + 3) 0 * 2 ^ 24)
  else .error .outOfRange

/-- `readInt32LE` (src/parser.js:104-117): as `readUInt32LE` but the top byte
enters via a signed 32-bit shift. -/
def readInt32LE (buffer : List Nat) (offset : Nat := 0) : Except JsErr Int :=
  if offset + 3 < buffer.length then
    let b3 := buffer.getD (offset + 3) 0
    .ok ((buffer.getD offset 0 + buffer.getD (offset + 1) 0 * 2 ^ 8 +
        buffer.getD (offset + 2) 0 * 2 ^ 16 : Int) +
      (if b3 < 128 then (b3 * 2 ^ 24 : Int) else (b3 * 2 ^ 24 : Int) - 2 ^ 32))
  else .error .outOfRange

/-- `readBigInt64LE` (src/parser.js:137-158): signed high 32 bits (the
`last << 24` overflow is intentional in the source) recombined with the
unsigned low 32 bits. -/
def readBigInt64LE (buffer : List Nat) (offset : Nat := 0) : Except JsErr Int :=
  if offset + 7 < buffer.length then
    let lo : Int := buffer.getD offset 0 + buffer.getD (offset + 1) 0 * 2 ^ 8 +
      buffer.getD (offset + 2) 0 * 2 ^ 16 + buffer.getD (offset + 3) 0 * 2 ^ 24
    let b7 := buffer.getD (offset + 7) 0
    let hi : Int := buffer.getD (offset + 4) 0 + buffer.getD (offset + 5) 0 * 2 ^ 8 +
      buffer.getD (offset + 6) 0 * 2 ^ 16 +
      (if b7 < 128 then (b7 * 2 ^ 24 : Int) else (b7 * 2 ^ 24 : Int) - 2 ^ 32)
    .ok (hi * 2 ^ 32 + lo)
  else .error .outOfRange

/-- `readDoubleLE` (src/parser.js:119-135): reinterpret 8 little-endian bytes
as an IEEE-754 binary64.  Finite values are decoded exactly into `Rat`;
NaN and the infinities become `JSValue.nonFinite`. -/
def readDoubleLE (buffer : List Nat) (offset : Nat := 0) : Except JsErr JSValue :=
  if offset + 7 < buffer.length then
    let n := buffer.getD offset 0 + buffer.getD (offset + 1) 0 * 2 ^ 8 +
      buffer.getD (offset + 2) 0 * 2 ^ 16 + buffer.getD (offset + 3) 0 * 2 ^ 24 +
      buffer.getD (offset + 4) 0 * 2 ^ 32 + buffer.getD (offset + 5) 0 * 2 ^ 40 +
      buffer.getD (offset + 6) 0 * 2 ^ 48 + buffer.getD (offset + 7) 0 * 2 ^ 56
    let negSign := n / 2 ^ 63 = 1
    let expo := n / 2 ^ 52 % 2 ^ 11
    let frac := n % 2 ^ 52
    if expo = 2047 then .ok (.nonFinite (frac ≠ 0) negSign)
    else
      let mantissa : Nat := if expo = 0 then frac else 2 ^ 52 + frac
      let scaled : Rat :=
        if 1075 ≤ expo then (mantissa * 2 ^ (expo - 1075) : Nat)
        else (mantissa : Rat) / ((2 ^ (1075 - max expo 1) : Nat) : Rat)
      .ok (.num (if negSign then -scaled else scaled))
  else .error .outOfRange

/-- `readString` (src/parser.js:82-87; `utils.readString` is the same):
u32 length including the trailing NUL, then the bytes without that NUL. -/
def readString (buffer : List Nat) (offset : Nat) : Except JsErr String :=
  match readUint32LE buffer offset with
  | .error e => .error e
  | .ok len => .ok (asciiToString (jsSubarray buffer (offset + 4) (offset + 4 + len - 1)))

/-- `readObjectId` (src/parser.js:77-80): 12 bytes rendered as hex. -/
def readObjectId (buffer : List Nat) (offset : Nat) : String :=
  ("ObjectId(") ++ listToHex (jsSubarray buffer offset (offset + 12)) ++ (")")

/-- Decimal digit characters of a natural number, most significant first
(the rendering of `toString(10)`).  The fuel argument only bounds the digit
count; `n + 1` always suffices. -/
def natDigitCharsGo : Nat → Nat → List Char → List Char
  | 0, _, acc => acc
  | fuel + 1, n, acc =>
    if n < 10 then Char.ofNat (48 + n % 10) :: acc
    else natDigitCharsGo fuel (n / 10) (Char.ofNat (48 + n % 10) :: acc)

def natDigitChars (n : Nat) : List Char := natDigitCharsGo (n + 1) n []

/-- A natural number as its decimal string. -/
def natToDecimalString (n : Nat) : String := String.mk (natDigitChars n)

/-- The textual form of a BSON Timestamp with the given seconds and ordinal
halves, seconds first (see `readTimestamp`). -/
def tsString (seconds ordinal : Nat) : String :=
  ("Timestamp(") ++ natToDecimalString seconds ++ (", ") ++
    natToDecimalString ordinal ++ (")")

/-- Modelled from the spec: `utils.readTimestamp` (`utils.js` is absent from
the sources).  Spec sections 3 and 4.4: the BSON Timestamp is a u64 holding
`{ordinal: u32}` in the low half and `{seconds: u32}` in the high half, and
its textual form lists seconds first, then the ordinal, so that the
flatteners' digit-run extraction yields the `(seconds, ordinal)` order. -/
def readTimestamp (buffer : List Nat) (offset : Nat) : Except JsErr String :=
  if offset + 7 < buffer.length then
    let lo := buffer.getD offset 0 + buffer.getD (offset + 1) 0 * 2 ^ 8 +
      buffer.getD (offset + 2) 0 * 2 ^ 16 + buffer.getD (offset + 3) 0 * 2 ^ 24
    let hi := buffer.getD (offset + 4) 0 + buffer.getD (offset + 5) 0 * 2 ^ 8 +
      buffer.getD (offset + 6) 0 * 2 ^ 16 + buffer.getD (offset + 7) 0 * 2 ^ 24
    .ok (tsString hi lo)
  else .error .outOfRange

/-- Modelled from the spec: `utils.validateBuffer` (`utils.js` is absent from
the sources).  Spec section 4.3 errors: `InvalidSize` when the declared size
is below 5 or exceeds the bytes remaining from the given offset. -/
def validateBuffer (buffer : List Nat) (size : Nat) (offset : Nat := 0) :
    Except JsErr Unit :=
  if size < 5 ∨ buffer.length - offset < size then .error .invalidSize else .ok ()

/-! ## The BSON parser of src/unnamed/part_000 -/

/-- The scan loop of `indexAfterCString`, structured over the suffix of the
buffer starting at the scan position `i`: an exhausted suffix is the
`buffer[i] === undefined` exit, a zero byte is the NUL exit, and otherwise the
scan advances. -/
def indexAfterCStringGo : List Nat → Nat → Nat
  | [], i => i + 1
  | b :: rest, i => if b ≠ 0 then indexAfterCStringGo rest (i + 1) else i + 1

/-- `indexAfterCString` (src/unnamed/part_000:11-18): scan from `offset` while
the byte is defined and non-zero (`buffer[i] !== 0x00 && i < buffer.length`),
returning one past the stopping position. -/
def indexAfterCString (buffer : List Nat) (offset : Nat) : Nat :=
  indexAfterCStringGo (buffer.drop offset) offset

/-- The spec-side characterization of the C-string scan: one past the first
NUL at or after `offset` when one exists, and `max offset buffer.length + 1`
when none does (for `offset ≤ buffer.length` this is `buffer.length + 1`). -/
def indexAfterCStringSpec (buffer : List Nat) (offset : Nat) : Nat :=
  match (buffer.drop offset).findIdx? (· = 0) with
  | some k => offset + k + 1
  | none => max offset buffer.length + 1

/-- One container being filled by the parser: the root object, a nested
document, or a nested array. -/
inductive Container where
  | objC (fields : List (String × JSValue))
  | arrC (elems : List JSValue)

/-- `Array.isArray(currentObj)`. -/
def isArrayOf : Container → Bool
  | .objC _ => false
  | .arrC _ => true

/-- A container as a value. -/
def materializeC : Container → JSValue
  | .objC fs => .obj fs
  | .arrC es => .arr es

/-- Object property assignment `obj[key] = value`: replace in place when the
key exists, append otherwise. -/
def objInsert : List (String × JSValue) → String → JSValue → List (String × JSValue)
  | [], k, v => [(k, v)]
  | (k0, v0) :: rest, k, v =>
    if k0 = k then (k0, v) :: rest else (k0, v0) :: objInsert rest k v

/-- `addValue` (src/unnamed/part_000:36-47): no-op when the key is undefined,
push for arrays, keyed assignment for objects. -/
def addValue (c : Container) (key : Option String) (v : JSValue) : Container :=
  match key with
  | none => c
  | some k =>
    match c with
    | .arrC es => .arrC (es ++ [v])
    | .objC fs => .objC (objInsert fs k v)

/-- A deferred stack frame: in the source the parent object is pushed by
reference and the child inserted into it immediately; here the insertion is
performed when the frame is popped (or at end of input), which yields the same
final tree. -/
structure Frame where
  parent : Container
  key : Option String
  endIdx : Nat

/-- Result of `parseBSON`: the parsed document, or (under `FTDC = true`) the
buffer suffix returned from inside the Binary case. -/
inductive ParsedBSON where
  | doc (fields : List (String × JSValue))
  | metrics (bytes : List Nat)

/-- The Binary element case (src/unnamed/part_000:138-149): read the declared
length; when it runs past the declared total document size and the FTDC
option is set, return the buffer suffix starting 9 bytes past the length
field (`subarray(index + 8 + 1, buffer.length)`); otherwise store the
hex-mapped value and advance past the element. -/
def parseBinaryElement (buffer : List Nat) (totalSize index : Nat) (ftdc : Bool)
    (cur : Container) (key : Option String) :
    Except JsErr (Sum (List Nat) (Container × Nat)) :=
  match readUint32LE buffer index with
  | .error e => .error e
  | .ok size =>
    if totalSize < size + index ∧ ftdc = true then
      .ok (.inl (buffer.drop (index + 8 + 1)))
    else
      .ok (.inr (addValue cur key (.str (hexJoinValue (jsSubarray buffer index (index + size)))),
        index + 4 + size))

/-- The element loop of `parseBSON` (src/unnamed/part_000:71-200).  The fuel
argument only bounds the iteration count; every iteration advances `index` by
at least one byte, so `buffer.length + 1` initial fuel always suffices. -/
def parseLoop (buffer : List Nat) (totalSize : Nat) (ftdc : Bool) :
    Nat → Nat → Container → Bool → Option String → List Frame →
    Except JsErr ParsedBSON
  | 0, _, _, _, _, _ => .error .outOfRange
  | fuel + 1, index, cur0, isArray0, key0, st0 =>
    if hidx : index < buffer.length then
      -- stack logic (lines 72-80): pop at most one frame whose end is here
      let st1 : Container × Bool × List Frame :=
        match st0 with
        | [] => (cur0, isArray0, [])
        | f :: rest =>
          if f.endIdx = index then
            let parent := addValue f.parent f.key (materializeC cur0)
            (parent, isArrayOf parent, rest)
          else (cur0, isArray0, st0)
      match st1 with
      | (cur, isArray, st) =>
        let elementType := buffer.get ⟨index, hidx⟩
        let index := index + 1
        if elementType = 0 then
          parseLoop buffer totalSize ftdc fuel index cur isArray key0 st
        else
          let key := if isArray then key0 else
            some (asciiToString (jsSubarray buffer index (indexAfterCString buffer index - 1)))
          let index := indexAfterCString buffer index
          match elementType with
          | 1 =>  -- NUMBER
            match readDoubleLE buffer index with
            | .error e => .error e
            | .ok v =>
              parseLoop buffer totalSize ftdc fuel (index + 8) (addValue cur key v) isArray key st
          | 2 =>  -- STRING (advance by 4 + value.length as in the source)
            match readString buffer index with
            | .error e => .error e
            | .ok s =>
              parseLoop buffer totalSize ftdc fuel (index + 4 + s.length)
                (addValue cur key (.str s)) isArray key st
          | 3 =>  -- DOCUMENT
            match readUint32LE buffer index with
            | .error e => .error e
            | .ok size =>
              match validateBuffer buffer size index with
              | .error e => .error e
              | .ok _ =>
                parseLoop buffer totalSize ftdc fuel (index + 4) (.objC [])
                  (if 5 < size then false else isArray) key
                  ({ parent := cur, key := key, endIdx := size + index } :: st)
          | 4 =>  -- ARRAY
            match readUint32LE buffer index with
            | .error e => .error e
            | .ok size =>
              match validateBuffer buffer size index with
              | .error e => .error e
              | .ok _ =>
                parseLoop buffer totalSize ftdc fuel (index + 4) (.arrC []) true key
                  ({ parent := cur, key := key, endIdx := size + index } :: st)
          | 5 =>  -- BINARY (falls through to the empty UNDEFINED case)
            match parseBinaryElement buffer totalSize index ftdc cur key with
            | .error e => .error e
            | .ok (.inl bytes) => .ok (.metrics bytes)
            | .ok (.inr (cur2, index2)) =>
              parseLoop buffer totalSize ftdc fuel index2 cur2 isArray key st
          | 7 =>  -- OBJECTID
            parseLoop buffer totalSize ftdc fuel (index + 12)
              (addValue cur key (.str (readObjectId buffer index))) isArray key st
          | 8 =>  -- BOOLEAN (an out-of-range read is undefined, hence true)
            let v : Bool := match buffer.get? index with
              | some 0 => false
              | _ => true
            parseLoop buffer totalSize ftdc fuel (index + 1)
              (addValue cur key (.bool v)) isArray key st
          | 9 =>  -- DATE (reads through an 8-byte subarray as in the source)
            match readBigInt64LE (jsSubarray buffer index (index + 8)) 0 with
            | .error e => .error e
            | .ok ms =>
              parseLoop buffer totalSize ftdc fuel (index + 8)
                (addValue cur key (.date ms)) isArray key st
          | 10 =>  -- NULL (no payload)
            parseLoop buffer totalSize ftdc fuel index (addValue cur key .null) isArray key st
          | 16 =>  -- INT32
            match readInt32LE buffer index with
            | .error e => .error e
            | .ok v =>
              parseLoop buffer totalSize ftdc fuel (index + 4)
                (addValue cur key (.num (v : Rat))) isArray key st
          | 17 =>  -- TIMESTAMP
            match readTimestamp buffer index with
            | .error e => .error e
            | .ok s =>
              parseLoop buffer totalSize ftdc fuel (index + 8)
                (addValue cur key (.str s)) isArray key st
          | 18 =>  -- LONG (stored as its decimal string)
            match readBigInt64LE buffer index with
            | .error e => .error e
            | .ok v =>
              parseLoop buffer totalSize ftdc fuel (index + 8)
                (addValue cur key (.str (toString v))) isArray key st
          | _ =>  -- UNDEFINED, REGEXP..CODE_W_SCOPE, DECIMAL128, MIN/MAX_KEY: skip
            parseLoop buffer totalSize ftdc fuel index cur isArray key st
    else
      -- loop exit: fold any unpopped frames back into their parents and
      -- return the root object
      match st0.foldl (fun c f => addValue f.parent f.key (materializeC c)) cur0 with
      | .objC fs => .ok (.doc fs)
      | .arrC _ => .error .typeError  -- unreachable: the root container is an object

/-- `parseBSON` (src/unnamed/part_000:54-202). -/
def parseBSON (buffer : List Nat) (ftdc : Bool := false) : Except JsErr ParsedBSON :=
  match readUint32LE buffer 0 with
  | .error e => .error e
  | .ok size =>
    match validateBuffer buffer size with
    | .error e => .error e
    | .ok _ => parseLoop buffer size ftdc (buffer.length + 1) 4 (.objC []) false none []

/-! ## JavaScript string-to-number coercions and regexp helpers -/

/-- ASCII decimal digit test. -/
def isDigitChar (c : Char) : Bool := 48 ≤ c.toNat ∧ c.toNat ≤ 57

/-- Value of a list of decimal digit characters. -/
def digitsVal (ds : List Char) : Nat :=
  ds.foldl (fun a c => a * 10 + (c.toNat - 48)) 0

/-- ASCII hexadecimal digit test and value. -/
def isHexDigitChar (c : Char) : Bool :=
  isDigitChar c ∨ (97 ≤ c.toNat ∧ c.toNat ≤ 102) ∨ (65 ≤ c.toNat ∧ c.toNat ≤ 70)

def hexDigitsVal (ds : List Char) : Nat :=
  ds.foldl (fun a c =>
    a * 16 + (if isDigitChar c then c.toNat - 48
      else if 97 ≤ c.toNat then c.toNat - 87 else c.toNat - 55)) 0

/-- JavaScript string whitespace (the forms occurring here). -/
def isJsWhitespace (c : Char) : Bool :=
  c.toNat = 32 ∨ c.toNat = 9 ∨ c.toNat = 10 ∨ c.toNat = 13 ∨ c.toNat = 11 ∨ c.toNat = 12

/-- Trim whitespace from both ends of a character list (String.prototype.trim). -/
def trimChars (cs : List Char) : List Char :=
  ((cs.dropWhile isJsWhitespace).reverse.dropWhile isJsWhitespace).reverse

/-- Character-list prefix test. -/
def charsPrefix : List Char → List Char → Bool
  | [], _ => true
  | _ :: _, [] => false
  | p :: ps, c :: cs => p = c && charsPrefix ps cs

/-- `value.startsWith('Timestamp')` as used throughout the decompressor. -/
def startsWithTimestamp (s : String) : Bool :=
  charsPrefix (("Timestamp").toList) s.toList

/-- The test of `/^-?\d+(\.\d+)?$/` (decompressor.js:295). -/
def decimalNumeralTest (s : String) : Bool :=
  let cs := s.toList
  let cs2 := match cs with
    | c :: rest => if c = '-' then rest else cs
    | [] => cs
  match cs2.span isDigitChar with
  | (ds, rest) =>
    !ds.isEmpty &&
      (rest.isEmpty ||
        (match rest with
         | c :: fs => c = '.' && !fs.isEmpty && fs.all isDigitChar
         | [] => false))

/-- The digit runs matched by `/\d+/g` (decompressor.js:130 and 312), in
order of occurrence. -/
def digitRunsGo : List Char → List Char → List String
  | [], cur => if cur.isEmpty then [] else [String.mk cur.reverse]
  | c :: rest, cur =>
    if isDigitChar c then digitRunsGo rest (c :: cur)
    else if cur.isEmpty then digitRunsGo rest []
    else String.mk cur.reverse :: digitRunsGo rest []

def digitRunsOf (s : String) : List String := digitRunsGo s.toList []

/-- JavaScript `Number(string)` (ToNumber), modelled for the string shapes
reachable in this code base: whitespace-trimmed empty string is 0; optional
sign followed by a decimal literal (integer part, optional fraction, optional
exponent); unsigned `0x` hexadecimal; `Infinity`.  Anything else is NaN.
(The `0b`/`0o` prefixes do not arise here.) -/
def jsToNumberOfString (s : String) : JSValue :=
  match trimChars s.toList with
  | [] => .num 0
  | cs =>
    match cs with
    | '0' :: x :: rest =>
      if (x = 'x' ∨ x = 'X') then
        if !rest.isEmpty && rest.all isHexDigitChar then .num (hexDigitsVal rest : Nat)
        else .nonFinite true false
      else jsDecimalLiteral cs false
    | c :: rest =>
      if c = '-' then jsDecimalLiteral rest true
      else if c = '+' then jsDecimalLiteral rest false
      else jsDecimalLiteral cs false
    | [] => .num 0
where
  /-- Unsigned decimal literal with optional fraction and exponent, or
  `Infinity`; NaN otherwise. -/
  jsDecimalLiteral (cs : List Char) (neg : Bool) : JSValue :=
    if cs = ("Infinity").toList then .nonFinite false neg
    else
      match cs.span isDigitChar with
      | (ip, r1) =>
        let fracAndRest : Option (List Char × List Char) :=
          match r1 with
          | c :: rr => if c = '.' then some (rr.span isDigitChar) else some ([], r1)
          | [] => some ([], [])
        match fracAndRest with
        | some (fp, r2) =>
          if ip.isEmpty ∧ fp.isEmpty then .nonFinite true neg
          else
            let mag : Rat := (digitsVal ip : Nat) +
              (digitsVal fp : Nat) / ((10 ^ fp.length : Nat) : Rat)
            match r2 with
            | [] => .num (if neg then -mag else mag)
            | e :: er =>
              if e = 'e' ∨ e = 'E' then
                let expPart : Option (Bool × List Char) :=
                  match er with
                  | c :: err =>
                    if c = '-' then some (true, err)
                    else if c = '+' then some (false, err)
                    else some (false, er)
                  | [] => none
                match expPart with
                | none => .nonFinite true neg
                | some (eneg, ed) =>
                  if ed.isEmpty || !ed.all isDigitChar then .nonFinite true neg
                  else
                    let p : Rat := if eneg then 1 / ((10 ^ digitsVal ed : Nat) : Rat)
                      else ((10 ^ digitsVal ed : Nat) : Rat)
                    .num (if neg then -(mag * p) else mag * p)
              else .nonFinite true neg
        | none => .nonFinite true neg

/-- `isNaN(string)` as used by `stripNonNumericFields` (decompressor.js:114). -/
def jsIsNaNString (s : String) : Bool :=
  match jsToNumberOfString s with
  | .nonFinite true _ => true
  | _ => false

/-- JavaScript `Number(value)` for non-string values reaching the coercion in
`extractMetricsFromDocument` (decompressor.js:143). -/
def jsToNumber : JSValue → JSValue
  | .num q => .num q
  | .nonFinite a b => .nonFinite a b
  | .bool b => .num (if b then 1 else 0)
  | .str s => jsToNumberOfString s
  | .date ms => .num (ms : Rat)
  | .null => .num 0
  | .undefinedVal => .nonFinite true false
  | .arr _ => .nonFinite true false
  | .obj _ => .nonFinite true false

/-- JavaScript `BigInt(string)`: trimmed empty is 0; optional sign with
decimal digits; unsigned `0x` hexadecimal; otherwise `SyntaxError` (this is
what rejects `"1.5"`). -/
def jsBigIntOfString (s : String) : Except JsErr Int :=
  match trimChars s.toList with
  | [] => .ok 0
  | c :: rest =>
    if c = '-' then
      if !rest.isEmpty && rest.all isDigitChar then .ok (-((digitsVal rest : Nat) : Int))
      else .error .syntaxError
    else if c = '+' then
      if !rest.isEmpty && rest.all isDigitChar then .ok ((digitsVal rest : Nat) : Int)
      else .error .syntaxError
    else
      match rest with
      | x :: rest2 =>
        if c = '0' && (x = 'x' || x = 'X') then
          if !rest2.isEmpty && rest2.all isHexDigitChar then .ok ((hexDigitsVal rest2 : Nat) : Int)
          else .error .syntaxError
        else if (c :: rest).all isDigitChar then .ok ((digitsVal (c :: rest) : Nat) : Int)
        else .error .syntaxError
      | [] =>
        if (c :: rest).all isDigitChar then .ok ((digitsVal (c :: rest) : Nat) : Int)
        else .error .syntaxError
/-! ## First-draft document walkers (decompressor.js:107-162) -/

/- Computable constructor count of a value, used as recursion fuel for the
document walkers: each walker step either consumes one list entry or descends
one constructor, so the constructor count bounds every call chain. -/
mutual
def jsSize : JSValue → Nat
  | .arr es => jsSizeList es + 1
  | .obj fs => jsSizeFields fs + 1
  | _ => 1

def jsSizeList : List JSValue → Nat
  | [] => 1
  | v :: rest => jsSize v + jsSizeList rest + 1

def jsSizeFields : List (String × JSValue) → Nat
  | [] => 1
  | (_, v) :: rest => jsSize v + jsSizeFields rest + 1
end

/- `stripNonNumericFields` (decompressor.js:107-124), over the entries of an
object and the elements of an array respectively.  A string leaf starting
with `Timestamp` is kept; other strings are deleted when `isNaN` or empty
and kept otherwise; `null` leaves throw `TypeError` when the code reads
`value.constructor`; nested objects and arrays are walked recursively.  Fuel
decreases on every call; the constructor count of the traversed entries
dominates it. -/
mutual
def stripFieldsGo : Nat → List (String × JSValue) → Except JsErr (List (String × JSValue))
  | 0, _ => .error .outOfRange
  | _ + 1, [] => .ok []
  | f + 1, (k, v) :: rest =>
    match v with
    | .str s =>
      if startsWithTimestamp s then
        match stripFieldsGo f rest with
        | .error e => .error e
        | .ok r => .ok ((k, v) :: r)
      else if jsIsNaNString s ∨ s = "" then stripFieldsGo f rest
      else
        match stripFieldsGo f rest with
        | .error e => .error e
        | .ok r => .ok ((k, v) :: r)
    | .null => .error .typeError
    | .undefinedVal => .error .typeError
    | .obj fs =>
      match stripFieldsGo f fs with
      | .error e => .error e
      | .ok fs2 =>
        match stripFieldsGo f rest with
        | .error e => .error e
        | .ok r => .ok ((k, .obj fs2) :: r)
    | .arr es =>
      match stripElemsGo f es with
      | .error e => .error e
      | .ok es2 =>
        match stripFieldsGo f rest with
        | .error e => .error e
        | .ok r => .ok ((k, .arr es2) :: r)
    | _ =>
      match stripFieldsGo f rest with
      | .error e => .error e
      | .ok r => .ok ((k, v) :: r)

def stripElemsGo : Nat → List JSValue → Except JsErr (List JSValue)
  | 0, _ => .error .outOfRange
  | _ + 1, [] => .ok []
  | f + 1, v :: rest =>
    match v with
    | .str s =>
      if startsWithTimestamp s then
        match stripElemsGo f rest with
        | .error e => .error e
        | .ok r => .ok (v :: r)
      else if jsIsNaNString s ∨ s = "" then stripElemsGo f rest
      else
        match stripElemsGo f rest with
        | .error e => .error e
        | .ok r => .ok (v :: r)
    | .null => .error .typeError
    | .undefinedVal => .error .typeError
    | .obj fs =>
      match stripFieldsGo f fs with
      | .error e => .error e
      | .ok fs2 =>
        match stripElemsGo f rest with
        | .error e => .error e
        | .ok r => .ok (.obj fs2 :: r)
    | .arr es =>
      match stripElemsGo f es with
      | .error e => .error e
      | .ok es2 =>
        match stripElemsGo f rest with
        | .error e => .error e
        | .ok r => .ok (.arr es2 :: r)
    | _ =>
      match stripElemsGo f rest with
      | .error e => .error e
      | .ok r => .ok (v :: r)
end

/-- Entry point of `stripNonNumericFields` on a document's entries. -/
def stripNonNumericFields (fields : List (String × JSValue)) :
    Except JsErr (List (String × JSValue)) :=
  stripFieldsGo (jsSizeFields fields + 1) fields

/-- `extractMetricsFromDocument` (decompressor.js:126-146) over
`Object.values`: Timestamp strings push their digit runs *as strings*
(`metrics.push(...numbers)` spreads the raw `match` result; a match with no
digits is `null` and spreading it throws); dates push their epoch
milliseconds; nested objects and arrays recurse; anything else pushes
`Number(value)` (`null` and `undefined` throw when `value.constructor` is
read). -/
def extractValuesGo : Nat → List JSValue → Except JsErr (List JSValue)
  | 0, _ => .error .outOfRange
  | _ + 1, [] => .ok []
  | f + 1, v :: rest =>
    match v with
    | .str s =>
      if startsWithTimestamp s then
        match digitRunsOf s with
        | [] => .error .typeError
        | runs =>
          match extractValuesGo f rest with
          | .error e => .error e
          | .ok r => .ok (runs.map .str ++ r)
      else
        match extractValuesGo f rest with
        | .error e => .error e
        | .ok r => .ok (jsToNumber v :: r)
    | .date ms =>
      match extractValuesGo f rest with
      | .error e => .error e
      | .ok r => .ok (.num (ms : Rat) :: r)
    | .null => .error .typeError
    | .undefinedVal => .error .typeError
    | .obj fs =>
      match extractValuesGo f (fs.map Prod.snd) with
      | .error e => .error e
      | .ok inner =>
        match extractValuesGo f rest with
        | .error e => .error e
        | .ok r => .ok (inner ++ r)
    | .arr es =>
      match extractValuesGo f es with
      | .error e => .error e
      | .ok inner =>
        match extractValuesGo f rest with
        | .error e => .error e
        | .ok r => .ok (inner ++ r)
    | _ =>
      match extractValuesGo f rest with
      | .error e => .error e
      | .ok r => .ok (jsToNumber v :: r)

/-- Entry point of `extractMetricsFromDocument` on a document's entries. -/
def extractMetricsFromDocument (fields : List (String × JSValue)) :
    Except JsErr (List JSValue) :=
  extractValuesGo (jsSizeFields fields + 1) (fields.map Prod.snd)

/-! ## Second-draft document walkers (decompressor.js:273-319) -/

/- `flattenObject` (decompressor.js:273-282): depth-first flattening into
dotted paths; array elements flatten under their decimal index keys; reading
`value.constructor` on a `null` (or `undefined`) leaf throws `TypeError`.
Fuel decreases on every call; the constructor count dominates it. -/
def flattenGo : Nat → List (String × JSValue) → String → List (String × JSValue) →
    Except JsErr (List (String × JSValue))
  | 0, _, _, _ => .error .outOfRange
  | _ + 1, [], _, result => .ok result
  | f + 1, (k, v) :: rest, path, result =>
    let pk := if path = "" then k else path ++ (".") ++ k
    match v with
    | .null => .error .typeError
    | .undefinedVal => .error .typeError
    | .obj fs =>
      match flattenGo f fs pk result with
      | .error e => .error e
      | .ok r2 => flattenGo f rest path r2
    | .arr es =>
      match flattenGo f (es.enum.map (fun p => (toString p.1, p.2))) pk result with
      | .error e => .error e
      | .ok r2 => flattenGo f rest path r2
    | _ => flattenGo f rest path (objInsert result pk v)

/-- Entry point of `flattenObject` on a document's entries. -/
def flattenObject (fields : List (String × JSValue)) :
    Except JsErr (List (String × JSValue)) :=
  flattenGo (jsSizeFields fields + 1) fields ("") []

/-- `isValid` (decompressor.js:284-297): numbers (including NaN and the
infinities), dates and booleans are valid; strings are valid when they match
`/^-?\d+(\.\d+)?$/` or start with `Timestamp`; everything else (including
`null`, objects and arrays) is not. -/
def isValid : JSValue → Bool
  | .num _ => true
  | .nonFinite _ _ => true
  | .date _ => true
  | .bool _ => true
  | .str s => decimalNumeralTest s || startsWithTimestamp s
  | _ => false

/-- `extractFromObj` (decompressor.js:299-319): walk the (already flattened)
entries; invalid values are deleted; dates are first converted to epoch
milliseconds; Timestamp strings push one `BigInt` per digit run (a Timestamp
string with no digits makes `match` return `null`, and spreading it throws);
every other kept value goes through `BigInt(value)`, which throws `RangeError`
on non-integral or non-finite numbers and `SyntaxError` on fractional
strings. -/
def extractFromObj : List (String × JSValue) → Except JsErr (List Int)
  | [] => .ok []
  | (_, v) :: rest =>
    if !isValid v then extractFromObj rest
    else
      let v2 := match v with
        | .date ms => JSValue.num (ms : Rat)
        | _ => v
      match v2 with
      | .str s =>
        if startsWithTimestamp s then
          match digitRunsOf s with
          | [] => .error .typeError
          | runs =>
            match extractFromObj rest with
            | .error e => .error e
            | .ok r => .ok (runs.map (fun d => (digitsVal d.toList : Int)) ++ r)
        else
          match jsBigIntOfString s with
          | .error e => .error e
          | .ok n =>
            match extractFromObj rest with
            | .error e => .error e
            | .ok r => .ok (n :: r)
      | .num q =>
        if q.den = 1 then
          match extractFromObj rest with
          | .error e => .error e
          | .ok r => .ok (q.num :: r)
        else .error .rangeError
      | .bool b =>
        match extractFromObj rest with
        | .error e => .error e
        | .ok r => .ok ((if b then 1 else 0) :: r)
      | .nonFinite _ _ => .error .rangeError
      | _ => .error .typeError  -- unreachable: such values fail isValid above

/-! ## First-draft sample document construction (decompressor.js:96-162) -/

/-- `metrics[pos]`: JavaScript yields `undefined` beyond the end. -/
def metricAt (metrics : List (Option Int)) (pos : Nat) : JSValue :=
  match (metrics.get? pos).join with
  | some m => .num (m : Rat)
  | none => .undefinedVal

/- `updateFromArray` (decompressor.js:148-162).  The walk is driven by the
entries of `ref`, but every write targets `doc[key]` on the same top-level
document `doc` — the recursive calls pass `doc`, not `doc[key]`, and `pos` is
passed by value so the caller's position does not advance over a nested
subtree.  A Timestamp string consumes two positions but writes one value;
`null`/`undefined` leaves throw when `value.constructor` is read.  Fuel
decreases on every call; the constructor count dominates it. -/
def updateFromArrayGo : Nat → List (String × JSValue) → List (String × JSValue) →
    List (Option Int) → Nat → Except JsErr (List (String × JSValue))
  | 0, _, _, _, _ => .error .outOfRange
  | _ + 1, [], doc, _, _ => .ok doc
  | f + 1, (k, v) :: rest, doc, metrics, pos =>
    match v with
    | .str s =>
      if startsWithTimestamp s then
        updateFromArrayGo f rest (objInsert doc k (metricAt metrics pos)) metrics (pos + 2)
      else
        updateFromArrayGo f rest (objInsert doc k (metricAt metrics pos)) metrics (pos + 1)
    | .null => .error .typeError
    | .undefinedVal => .error .typeError
    | .obj fs =>
      match updateFromArrayGo f fs doc metrics pos with
      | .error e => .error e
      | .ok doc2 => updateFromArrayGo f rest doc2 metrics pos
    | .arr es =>
      match updateFromArrayGo f (es.enum.map (fun p => (toString p.1, p.2))) doc metrics pos with
      | .error e => .error e
      | .ok doc2 => updateFromArrayGo f rest doc2 metrics pos
    | _ => updateFromArrayGo f rest (objInsert doc k (metricAt metrics pos)) metrics (pos + 1)

/-- Entry point of `updateFromArray`: in the source `ref` and `doc` are the
same object (`currentDocument === referenceDocument`); `Object.entries(ref)`
is snapshotted before any write. -/
def updateFromArray (ref doc : List (String × JSValue)) (metrics : List (Option Int)) :
    Except JsErr (List (String × JSValue)) :=
  updateFromArrayGo (jsSizeFields ref + 1) ref doc metrics 0

/-- The mutable state of the sample-construction loop
(decompressor.js:96-104): a heap of document objects by address, and the list
of addresses pushed into `docs`.  Exactly one document is ever allocated —
`currentDocument` is bound to `referenceDocument` at decompressor.js:49 — so
every push appends address 0. -/
structure SampleLoopState where
  heap : List (List (String × JSValue))
  docs : List Nat

/-- Loop initialization: `docs.push(currentDocument)` at decompressor.js:78-79
pushes the (sole) document at address 0. -/
def sampleDocsInit (ref : List (String × JSValue)) : SampleLoopState :=
  { heap := [ref], docs := [0] }

/-- One iteration of the loop at decompressor.js:96-102: overwrite
`metrics[j]` with the restored value at `j * sampleCount + i`, run
`updateFromArray(referenceDocument, currentDocument, metrics)` (both are the
document at address 0), and push the same address onto `docs` again. -/
def sampleDocsStep (restored : List Int) (metricsCount sampleCount : Nat)
    (st : SampleLoopState) (i : Nat) : Except JsErr SampleLoopState :=
  let metrics : List (Option Int) :=
    (List.range metricsCount).map (fun j => restored.get? (j * sampleCount + i))
  let doc := st.heap.getD 0 []
  match updateFromArray doc doc metrics with
  | .error e => .error e
  | .ok doc2 => .ok { heap := st.heap.set 0 doc2, docs := st.docs ++ [0] }

/-- The first `k` iterations of the sample-construction loop. -/
def sampleDocsRun (ref : List (String × JSValue)) (restored : List Int)
    (metricsCount sampleCount k : Nat) : Except JsErr SampleLoopState :=
  (List.range k).foldlM (sampleDocsStep restored metricsCount sampleCount)
    (sampleDocsInit ref)

/-- Reading the contents of every pushed document after some iterations: the
observable value of the `docs` array. -/
def materializeDocs (st : SampleLoopState) : List (List (String × JSValue)) :=
  st.docs.map (fun a => st.heap.getD a [])

/-! ## The two uncompress pipelines -/

/-- The first-draft `uncompress` (decompressor.js:20-105) from the point where
the inflated buffer is available (line 33; inflation itself is the external
`DecompressionStream` collaborator): read the reference document size, parse
and strip the reference document, read the two counters, apply the
`1_000_000` product guard, extract the metrics and apply the count-mismatch
guard.  Execution can proceed no further: decompressor.js:59 reads the
undefined identifier `data` (`utils.createBufferReader(data)`), which raises
a `ReferenceError`. -/
def uncompress (buffer : List Nat) : Except JsErr Unit :=
  match readUint32LE buffer 0 with
  | .error e => .error e
  | .ok size =>
    match parseBSON (jsSubarray buffer 0 size) false with
    | .error e => .error e
    | .ok (.metrics _) => .error .typeError  -- unreachable with FTDC false
    | .ok (.doc referenceDocument) =>
      let buffer2 := buffer.drop size
      match stripNonNumericFields referenceDocument with
      | .error e => .error e
      | .ok stripped =>
        match readUint32LE buffer2 0 with
        | .error e => .error e
        | .ok metricsCount =>
          match readUint32LE buffer2 4 with
          | .error e => .error e
          | .ok sampleCount =>
            if 1000000 < metricsCount * sampleCount then .error .chunkTooLarge
            else
              match extractMetricsFromDocument stripped with
              | .error e => .error e
              | .ok metrics =>
                if metrics.length ≠ metricsCount then .error .metricsCountMismatch
                else .error .referenceErrorData

/-- The second-draft `uncompress` (decompressor.js:185-219) from the point
where the inflated buffer is available (line 198): parse and flatten the
reference document, read the two counters through the buffer reader, extract
the bases, decode the deltas from the remaining stream, restore, and collect
the samples that the generator logs.  Note there is no product guard and no
metrics-count comparison in this draft. -/
def uncompressSecond (buffer : List Nat) : Except JsErr (List (List (Option Int))) :=
  match readUint32LE buffer 0 with
  | .error e => .error e
  | .ok size =>
    match parseBSON (jsSubarray buffer 0 size) false with
    | .error e => .error e
    | .ok (.metrics _) => .error .typeError  -- unreachable with FTDC false
    | .ok (.doc ref) =>
      match flattenObject ref with
      | .error e => .error e
      | .ok flat =>
        let rest := buffer.drop size
        match readUint32LE rest 0 with
        | .error e => .error e
        | .ok numMetrics =>
          match readUint32LE rest 4 with
          | .error e => .error e
          | .ok numSamples =>
            match extractFromObj flat with
            | .error e => .error e
            | .ok metrics =>
              match decodeDeltas (rest.drop 8) with
              | .error e => .error e
              | .ok deltas =>
                match restoreSamples deltas metrics numSamples with
                | .error e => .error e
                | .ok restored => .ok (iterateMetricSamples restored numMetrics numSamples)

/-! ## Claim C3: the FTDC early return of parseBSON -/

/-- Claim C3 counterexample.  The claim states that with `FTDC = true` the
parser returns the binary carrier for *every* top-level Binary element,
unconditionally on its declared length.  This document consists of a single
top-level Binary element `b` with declared length 1 (so
`size + index = 8 ≤ totalSize = 14`): the parser does *not* return early —
it stores the hex-mapped value and finishes parsing the document. -/
theorem parseBSON_small_top_level_binary_is_not_returned :
    parseBSON [14, 0, 0, 0, 5, 98, 0, 1, 0, 0, 0, 0, 65, 0] true =
      .ok (.doc [(("b" : String), .str ("1"))]) := by rfl

/-- Claim C3 as amended.  At a Binary element whose declared length reads as
`size`, the parser returns early precisely when the FTDC option is set *and*
`size + index` exceeds the declared total document size, and what it returns
is the buffer suffix starting 9 bytes past the length field
(`subarray(index + 8 + 1)` — skipping the 4 length bytes, the subtype byte
and the first 4 payload bytes), not a subtype/payload carrier; otherwise
parsing continues with the element's hex-mapped value. -/
theorem parseBinaryElement_ftdc_return_characterization
    (buffer : List Nat) (totalSize index : Nat) (ftdc : Bool) (cur : Container)
    (key : Option String) (size : Nat)
    (h : readUint32LE buffer index = .ok size) :
    (parseBinaryElement buffer totalSize index ftdc cur key =
        .ok (.inl (buffer.drop (index + 9))) ↔
      (ftdc = true ∧ totalSize < size + index)) ∧
    (¬(ftdc = true ∧ totalSize < size + index) →
      parseBinaryElement buffer totalSize index ftdc cur key =
        .ok (.inr (addValue cur key
          (.str (hexJoinValue (jsSubarray buffer index (index + size)))),
          index + 4 + size))) := by
  unfold parseBinaryElement
  rw [h]
  dsimp only
  by_cases hc : totalSize < size + index ∧ ftdc = true
  · rw [if_pos hc]
    refine ⟨⟨fun _ => ⟨hc.2, hc.1⟩, fun _ => rfl⟩, fun hn => absurd (And.intro hc.2 hc.1) hn⟩
  · rw [if_neg hc]
    refine ⟨⟨fun he => ?_, fun hcond => absurd (And.intro hcond.2 hcond.1) hc⟩, fun _ => rfl⟩
    simp at he

/-- Witness for the C3 characterization: a document whose Binary element
declares length 16 while the document size is 14, with the FTDC option set;
the suffix from byte 16 of the 14-byte buffer is empty. -/
theorem parseBinaryElement_ftdc_return_characterization_witness :
    parseBinaryElement [14, 0, 0, 0, 5, 98, 0, 16, 0, 0, 0, 0, 65, 0] 14 7 true
      (.objC []) (some ("b")) = .ok (.inl []) := by
  have h := (parseBinaryElement_ftdc_return_characterization
    [14, 0, 0, 0, 5, 98, 0, 16, 0, 0, 0, 0, 65, 0] 14 7 true (.objC []) (some ("b"))
    16 (by rfl)).1.mpr ⟨rfl, by norm_num⟩
  exact h

/-! ## Claims C4 and C5: the two chunk guards -/

/-- Claim C4.  The claim states that every chunk with
`N_metrics × N_samples > 1_000_000` is rejected with `ChunkTooLarge`.  The
first-draft `uncompress` (guard at decompressor.js:44-46) does exactly that:
on a chunk declaring 2000 × 1000 it raises `ChunkTooLarge`, and on the same
chunk with counts 1 × 2 it passes the guard (failing only later at the
`data` `ReferenceError` of line 59).  The second-draft `uncompress`
(decompressor.js:185-219) has no count guard at all: the same oversized chunk
proceeds to decoding and dies with a `RangeError` inside `restoreSamples`,
never with `ChunkTooLarge`. -/
theorem uncompress_count_guard_only_in_first_draft :
    uncompress [12, 0, 0, 0, 16, 97, 0, 1, 0, 0, 0, 0,
      208, 7, 0, 0, 232, 3, 0, 0, 5, 3] = .error .chunkTooLarge ∧
    uncompressSecond [12, 0, 0, 0, 16, 97, 0, 1, 0, 0, 0, 0,
      208, 7, 0, 0, 232, 3, 0, 0, 5, 3] = .error .rangeError ∧
    uncompress [12, 0, 0, 0, 16, 97, 0, 1, 0, 0, 0, 0,
      1, 0, 0, 0, 2, 0, 0, 0, 5, 3] = .error .referenceErrorData := by
  refine ⟨by rfl, ?_, by rfl⟩
  set_option maxRecDepth 10000 in rfl

/-- Claim C5.  The claim states that `MetricsCountMismatch` is raised iff the
flattened base count differs from the declared `N_metrics`.  The first-draft
`uncompress` (check at decompressor.js:52-54) raises it on this chunk, whose
reference document flattens to one base while the tail declares 2.  The
second-draft `uncompress` (decompressor.js:185-219) performs no such
comparison: the same chunk decodes without any error into samples whose
second metric column is `undefined`. -/
theorem uncompress_metrics_count_check_only_in_first_draft :
    uncompress [12, 0, 0, 0, 16, 97, 0, 1, 0, 0, 0, 0,
      2, 0, 0, 0, 2, 0, 0, 0, 5, 3] = .error .metricsCountMismatch ∧
    uncompressSecond [12, 0, 0, 0, 16, 97, 0, 1, 0, 0, 0, 0,
      2, 0, 0, 0, 2, 0, 0, 0, 5, 3] = .ok [[some 6, none], [some 8, none]] := by
  refine ⟨by rfl, ?_⟩
  set_option maxRecDepth 10000 in rfl

/-! ## Claim C7: yielded samples are not independent -/

/-- Claim C7.  The claim states that once a sample has been yielded, yielding
later samples does not change it, the result being distinct mappings.  In the
first-draft loop (decompressor.js:96-104) every iteration mutates and pushes
the *same* document (`currentDocument === referenceDocument`): with reference
`{a: 1}` and restored column `[6, 9]` (one metric, two samples), the document
pushed by iteration 1 reads `{a: 6}` after that iteration but `{a: 9}` after
iteration 2, and after the loop all three pushed entries are the same
`{a: 9}`. -/
theorem uncompress_sample_documents_alias_one_object :
    ((sampleDocsRun [(("a" : String), .num 1)] (restoreCumulative [5, 3] [1] 1 2) 1 2 1).map
      (fun st => (materializeDocs st).get? 1) = .ok (some [(("a" : String), .num 6)])) ∧
    ((sampleDocsRun [(("a" : String), .num 1)] (restoreCumulative [5, 3] [1] 1 2) 1 2 2).map
      (fun st => (materializeDocs st).get? 1) = .ok (some [(("a" : String), .num 9)])) ∧
    ((sampleDocsRun [(("a" : String), .num 1)] (restoreCumulative [5, 3] [1] 1 2) 1 2 2).map
      materializeDocs = .ok [[(("a" : String), .num 9)], [(("a" : String), .num 9)],
        [(("a" : String), .num 9)]]) := by
  exact ⟨by rfl, by rfl, by rfl⟩

/-! ## Claim C8: Timestamp expansion -/

/-- Claim C8 counterexample.  The claim states that every kept non-Timestamp
leaf emits exactly one base entry.  The string leaf `"1.5"` is kept by
`isValid` (it matches the decimal pattern), yet the second-draft
`extractFromObj` throws `SyntaxError` at `BigInt("1.5")` instead of emitting
an entry. -/
theorem extractFromObj_kept_fractional_string_throws :
    isValid (.str ("1.5")) = true ∧
    extractFromObj [(("x" : String), .str ("1.5"))] = .error .syntaxError := by
  exact ⟨by rfl, by rfl⟩

/- Helper: `readUint32LE` evaluated under an explicit bounds hypothesis,
which keeps the length test out of kernel reduction. -/
theorem readUint32LE_of_lt (buffer : List Nat) (offset : Nat)
    (h : offset + 3 < buffer.length) :
    readUint32LE buffer offset =
      .ok (buffer.getD offset 0 + buffer.getD (offset + 1) 0 * 2 ^ 8 +
        buffer.getD (offset + 2) 0 * 2 ^ 16 + buffer.getD (offset + 3) 0 * 2 ^ 24) := by
  unfold readUint32LE
  rw [if_pos h]

theorem uncompress_steps (buffer : List Nat) (size : Nat)
    (ref stripped : List (String × JSValue)) (mc sc : Nat) (metrics : List JSValue)
    (h1 : readUint32LE buffer 0 = .ok size)
    (h2 : parseBSON (jsSubarray buffer 0 size) false = .ok (.doc ref))
    (h3 : stripNonNumericFields ref = .ok stripped)
    (h4 : readUint32LE (buffer.drop size) 0 = .ok mc)
    (h5 : readUint32LE (buffer.drop size) 4 = .ok sc)
    (h6 : extractMetricsFromDocument stripped = .ok metrics) :
    uncompress buffer =
      if 1000000 < mc * sc then .error .chunkTooLarge
      else if metrics.length ≠ mc then .error .metricsCountMismatch
      else .error .referenceErrorData := by
  unfold uncompress
  rw [h1]
  dsimp only
  rw [h2]
  dsimp only
  rw [h3]
  dsimp only
  rw [h4]
  dsimp only
  rw [h5]
  dsimp only
  by_cases hL : 1000000 < mc * sc
  · simp only [if_pos hL]
  · simp only [if_neg hL]
    rw [h6]

theorem ts_chunk_family (b0 b1 b2 b3 : Nat) :
    uncompress [16, 0, 0, 0, 17, 116, 0, 3, 0, 0, 0, 0, 241, 83, 101, 0,
        b0, b1, b2, b3, 1, 0, 0, 0, 5, 3] =
      (if 1000000 < b0 + b1 * 2 ^ 8 + b2 * 2 ^ 16 + b3 * 2 ^ 24 then
        .error .chunkTooLarge
       else if b0 + b1 * 2 ^ 8 + b2 * 2 ^ 16 + b3 * 2 ^ 24 = 2 then
        .error .referenceErrorData
       else .error .metricsCountMismatch) := by
  have hdrop : List.drop 16 [16, 0, 0, 0, 17, 116, 0, 3, 0, 0, 0, 0, 241, 83, 101, 0,
      b0, b1, b2, b3, 1, 0, 0, 0, 5, 3] = [b0, b1, b2, b3, 1, 0, 0, 0, 5, 3] := rfl
  have hsub : jsSubarray [16, 0, 0, 0, 17, 116, 0, 3, 0, 0, 0, 0, 241, 83, 101, 0,
      b0, b1, b2, b3, 1, 0, 0, 0, 5, 3] 0 16 =
      [16, 0, 0, 0, 17, 116, 0, 3, 0, 0, 0, 0, 241, 83, 101, 0] := rfl
  have h2 : parseBSON (jsSubarray [16, 0, 0, 0, 17, 116, 0, 3, 0, 0, 0, 0, 241, 83, 101, 0,
      b0, b1, b2, b3, 1, 0, 0, 0, 5, 3] 0 16) false =
      .ok (.doc [(("t" : String), .str (tsString 1700000000 3))]) := by
    rw [hsub]
    rfl
  have h1 : readUint32LE [16, 0, 0, 0, 17, 116, 0, 3, 0, 0, 0, 0, 241, 83, 101, 0,
      b0, b1, b2, b3, 1, 0, 0, 0, 5, 3] 0 = .ok 16 := by
    rw [readUint32LE_of_lt]
    · norm_num [List.getD]
    · simp
  have h4 : readUint32LE [b0, b1, b2, b3, 1, 0, 0, 0, 5, 3] 0 =
      .ok (b0 + b1 * 2 ^ 8 + b2 * 2 ^ 16 + b3 * 2 ^ 24) := by
    rw [readUint32LE_of_lt]
    · norm_num [List.getD]
    · simp
  have h5 : readUint32LE [b0, b1, b2, b3, 1, 0, 0, 0, 5, 3] 4 = .ok 1 := by
    rw [readUint32LE_of_lt]
    · norm_num [List.getD]
    · simp
  rw [uncompress_steps _ 16
      [(("t" : String), .str (tsString 1700000000 3))]
      [(("t" : String), .str (tsString 1700000000 3))]
      (b0 + b1 * 2 ^ 8 + b2 * 2 ^ 16 + b3 * 2 ^ 24) 1
      [.str ("1700000000"), .str ("3")]
      h1 h2 (by rfl)
      (by rw [hdrop]; exact h4)
      (by rw [hdrop]; exact h5)
      (by rfl)]
  simp only [Nat.mul_one, List.length_cons, List.length_nil]
  by_cases hL : 1000000 < b0 + b1 * 2 ^ 8 + b2 * 2 ^ 16 + b3 * 2 ^ 24
  · simp only [if_pos hL]
  · simp only [if_neg hL]
    by_cases hE : b0 + b1 * 2 ^ 8 + b2 * 2 ^ 16 + b3 * 2 ^ 24 = 2
    · simp only [if_pos hE,
        if_neg (by omega : ¬((2 : Nat) ≠ b0 + b1 * 2 ^ 8 + b2 * 2 ^ 16 + b3 * 2 ^ 24))]
    · simp only [if_neg hE,
        if_pos (by omega : (2 : Nat) ≠ b0 + b1 * 2 ^ 8 + b2 * 2 ^ 16 + b3 * 2 ^ 24)]
theorem digitChar_isDigit (m : Nat) (h : m < 10) :
    isDigitChar (Char.ofNat (48 + m)) = true := by
  interval_cases m <;> decide

theorem digitChar_toNat (m : Nat) (h : m < 10) :
    (Char.ofNat (48 + m)).toNat = 48 + m := by
  interval_cases m <;> decide

theorem digitsVal_foldl (xs : List Char) :
    ∀ a, xs.foldl (fun b c => b * 10 + (c.toNat - 48)) a =
      a * 10 ^ xs.length + digitsVal xs := by
  induction xs with
  | nil => intro a; simp [digitsVal]
  | cons c xs ih =>
    intro a
    have h1 := ih (a * 10 + (c.toNat - 48))
    have h2 := ih (0 * 10 + (c.toNat - 48))
    simp only [List.foldl_cons, digitsVal] at *
    rw [h1, h2]
    simp only [List.length_cons, pow_succ]
    ring

theorem natDigitCharsGo_all (fuel : Nat) :
    ∀ n acc, n < fuel → acc.all isDigitChar = true →
      (natDigitCharsGo fuel n acc).all isDigitChar = true := by
  induction fuel with
  | zero => intro n acc h; omega
  | succ fuel ih =>
    intro n acc h hacc
    rw [natDigitCharsGo]
    by_cases h10 : n < 10
    · rw [if_pos h10]
      simp [List.all_cons, digitChar_isDigit (n % 10) (Nat.mod_lt n (by norm_num)), hacc]
    · rw [if_neg h10]
      refine ih (n / 10) _ ?_ ?_
      · have := Nat.div_lt_self (by omega : 0 < n) (by norm_num : 1 < 10)
        omega
      · simp [List.all_cons, digitChar_isDigit (n % 10) (Nat.mod_lt n (by omega)), hacc]

theorem natDigitCharsGo_ne_nil (fuel : Nat) :
    ∀ n acc, n < fuel → natDigitCharsGo fuel n acc ≠ [] := by
  induction fuel with
  | zero => intro n acc h; omega
  | succ fuel ih =>
    intro n acc h
    rw [natDigitCharsGo]
    by_cases h10 : n < 10
    · rw [if_pos h10]; simp
    · rw [if_neg h10]
      refine ih (n / 10) _ ?_
      have := Nat.div_lt_self (by omega : 0 < n) (by norm_num : 1 < 10)
      omega

theorem natDigitCharsGo_val (fuel : Nat) :
    ∀ n acc, n < fuel →
      digitsVal (natDigitCharsGo fuel n acc) = n * 10 ^ acc.length + digitsVal acc := by
  induction fuel with
  | zero => intro n acc h; omega
  | succ fuel ih =>
    intro n acc h
    have hm : n % 10 < 10 := Nat.mod_lt n (by omega)
    have htn : (Char.ofNat (48 + n % 10)).toNat = 48 + n % 10 := digitChar_toNat _ hm
    rw [natDigitCharsGo]
    by_cases h10 : n < 10
    · rw [if_pos h10]
      have hv : digitsVal (Char.ofNat (48 + n % 10) :: acc) =
          (n % 10) * 10 ^ acc.length + digitsVal acc := by
        simp only [digitsVal, List.foldl_cons]
        rw [digitsVal_foldl acc, htn]
        have h48 : 48 + n % 10 - 48 = n % 10 := by omega
        rw [h48]
        simp [digitsVal]
      rw [hv, Nat.mod_eq_of_lt h10]
    · rw [if_neg h10]
      have hdiv : n / 10 < fuel := by
        have := Nat.div_lt_self (by omega : 0 < n) (by norm_num : 1 < 10)
        omega
      rw [ih (n / 10) _ hdiv]
      have hstep : digitsVal (Char.ofNat (48 + n % 10) :: acc) =
          (n % 10) * 10 ^ acc.length + digitsVal acc := by
        simp only [digitsVal, List.foldl_cons]
        rw [digitsVal_foldl acc, htn]
        have h48 : 48 + n % 10 - 48 = n % 10 := by omega
        rw [h48]
        simp [digitsVal]
      rw [hstep]
      simp only [List.length_cons, pow_succ]
      have hnm : 10 * (n / 10) + n % 10 = n := Nat.div_add_mod n 10
      calc n / 10 * (10 ^ acc.length * 10) + (n % 10 * 10 ^ acc.length + digitsVal acc)
          = (10 * (n / 10) + n % 10) * 10 ^ acc.length + digitsVal acc := by ring
        _ = n * 10 ^ acc.length + digitsVal acc := by rw [hnm]

theorem natDigitChars_all (n : Nat) : (natDigitChars n).all isDigitChar = true :=
  natDigitCharsGo_all (n + 1) n [] (by omega) (by decide)

theorem natDigitChars_ne_nil (n : Nat) : natDigitChars n ≠ [] :=
  natDigitCharsGo_ne_nil (n + 1) n [] (by omega)

theorem digitsVal_natDigitChars (n : Nat) : digitsVal (natDigitChars n) = n := by
  have h := natDigitCharsGo_val (n + 1) n [] (by omega)
  simpa [digitsVal] using h

theorem digitRunsGo_all_digits (ds : List Char) :
    ∀ cs cur, ds.all isDigitChar = true →
      digitRunsGo (ds ++ cs) cur = digitRunsGo cs (ds.reverse ++ cur) := by
  induction ds with
  | nil => intro cs cur h; simp
  | cons d ds ih =>
    intro cs cur h
    simp only [List.all_cons, Bool.and_eq_true] at h
    simp only [List.cons_append, digitRunsGo, h.1, if_pos]
    rw [List.append_eq, ih cs (d :: cur) h.2]
    simp

theorem digitRunsGo_stop (c : Char) (cs cur : List Char)
    (hc : isDigitChar c = false) (hcur : cur ≠ []) :
    digitRunsGo (c :: cs) cur = String.mk cur.reverse :: digitRunsGo cs [] := by
  cases cur with
  | nil => exact absurd rfl hcur
  | cons a cur => simp [digitRunsGo, hc]

theorem tsString_toList (s i : Nat) :
    (tsString s i).toList =
      ('T' :: 'i' :: 'm' :: 'e' :: 's' :: 't' :: 'a' :: 'm' :: 'p' :: '(' :: []) ++
        natDigitChars s ++ (',' :: ' ' :: []) ++ natDigitChars i ++ (')' :: []) := by
  simp [tsString, natToDecimalString, String.toList, String.data_append]

theorem digitRuns_tsString (s i : Nat) :
    digitRunsOf (tsString s i) = [natToDecimalString s, natToDecimalString i] := by
  rw [digitRunsOf, tsString_toList]
  simp only [List.append_assoc, List.cons_append, List.nil_append]
  simp only [digitRunsGo, show isDigitChar 'T' = false from rfl,
    show isDigitChar 'i' = false from rfl, show isDigitChar 'm' = false from rfl,
    show isDigitChar 'e' = false from rfl, show isDigitChar 's' = false from rfl,
    show isDigitChar 't' = false from rfl, show isDigitChar 'a' = false from rfl,
    show isDigitChar 'p' = false from rfl, show isDigitChar '(' = false from rfl,
    Bool.false_eq_true, if_false, List.isEmpty_nil, if_true]
  rw [digitRunsGo_all_digits (natDigitChars s) _ [] (natDigitChars_all s)]
  rw [digitRunsGo_stop ',' _ _ (by rfl) (by simp [natDigitChars_ne_nil s])]
  simp only [digitRunsGo, show isDigitChar ' ' = false from rfl, Bool.false_eq_true,
    if_false, List.isEmpty_nil, if_true]
  rw [digitRunsGo_all_digits (natDigitChars i) _ [] (natDigitChars_all i)]
  rw [digitRunsGo_stop ')' _ _ (by rfl) (by simp [natDigitChars_ne_nil i])]
  simp [natToDecimalString, digitRunsGo, natDigitChars_ne_nil]

theorem startsWithTimestamp_tsString (s i : Nat) :
    startsWithTimestamp (tsString s i) = true := by
  rw [startsWithTimestamp, tsString_toList,
    show (("Timestamp").toList) = ['T','i','m','e','s','t','a','m','p'] from rfl]
  simp [charsPrefix]

theorem isValid_tsString (s i : Nat) : isValid (.str (tsString s i)) = true := by
  simp only [isValid, Bool.or_eq_true]
  right
  exact startsWithTimestamp_tsString s i

theorem extractFromObj_timestamp_cons (k : String) (s i : Nat)
    (rest : List (String × JSValue)) :
    extractFromObj ((k, .str (tsString s i)) :: rest) =
      (extractFromObj rest).map (fun r => (s : Int) :: (i : Int) :: r) := by
  have hv := isValid_tsString s i
  simp only [extractFromObj, hv, Bool.not_true, Bool.false_eq_true, if_false,
    startsWithTimestamp_tsString, digitRuns_tsString, if_true]
  cases h : extractFromObj rest with
  | error e => simp [h, Except.map]
  | ok r =>
    simp [h, Except.map, natToDecimalString, String.toList, digitsVal_natDigitChars]

theorem extractFromObj_append (l1 l2 : List (String × JSValue)) :
    extractFromObj (l1 ++ l2) =
      match extractFromObj l1 with
      | .error e => .error e
      | .ok r1 => (extractFromObj l2).map (fun r2 => r1 ++ r2) := by
  induction l1 with
  | nil => cases h : extractFromObj l2 <;> simp [extractFromObj, h, Except.map]
  | cons e tl ih =>
    obtain ⟨k, v⟩ := e
    simp only [List.cons_append, extractFromObj, List.append_eq]
    rw [ih]
    clear ih
    cases h1 : extractFromObj tl <;> cases h2 : extractFromObj l2 <;>
      simp only [h1, h2] <;>
      (split <;> (try split) <;> (try split) <;> (try split) <;>
        simp_all [Except.map, List.append_assoc])

theorem extractFromObj_timestamp_position (pre : List (String × JSValue)) (k : String)
    (s i : Nat) (rest : List (String × JSValue)) :
    extractFromObj (pre ++ (k, .str (tsString s i)) :: rest) =
      (extractFromObj pre).bind (fun r1 =>
        (extractFromObj rest).map (fun r2 => r1 ++ (s : Int) :: (i : Int) :: r2)) := by
  rw [extractFromObj_append, extractFromObj_timestamp_cons]
  cases extractFromObj pre <;> cases extractFromObj rest <;>
    simp [Except.map, Except.bind]

theorem isDigitChar_ne (c x : Char) (h : isDigitChar c = true) (hx : isDigitChar x = false) :
    c ≠ x := by
  intro he; rw [he, hx] at h; exact absurd h (by simp)

theorem all_digits_takeWhile (ds : List Char) (h : ds.all isDigitChar = true) :
    ds.takeWhile isDigitChar = ds := by
  induction ds with
  | nil => rfl
  | cons d tl ih =>
    simp only [List.all_cons, Bool.and_eq_true] at h
    simp [List.takeWhile_cons, h.1, ih h.2]

theorem all_digits_dropWhile (ds : List Char) (h : ds.all isDigitChar = true) :
    ds.dropWhile isDigitChar = [] := by
  induction ds with
  | nil => rfl
  | cons d tl ih =>
    simp only [List.all_cons, Bool.and_eq_true] at h
    simp [List.dropWhile_cons, h.1, ih h.2]

theorem digit_not_ws (c : Char) (h : isDigitChar c = true) : isJsWhitespace c = false := by
  simp only [isDigitChar, decide_eq_true_eq] at h
  simp only [isJsWhitespace, decide_eq_true_eq]
  simp only [decide_eq_false_iff_not]
  omega

theorem trimChars_digits (ds : List Char) (h : ds.all isDigitChar = true) :
    trimChars ds = ds := by
  have h1 : ds.dropWhile isJsWhitespace = ds := by
    cases ds with
    | nil => rfl
    | cons d tl =>
      simp only [List.all_cons, Bool.and_eq_true] at h
      simp [List.dropWhile_cons, digit_not_ws d h.1]
  have h2 : ds.reverse.dropWhile isJsWhitespace = ds.reverse := by
    cases hr : ds.reverse with
    | nil => rfl
    | cons d tl =>
      have hd : isDigitChar d = true := by
        have hmem : d ∈ ds := by
          have hmemr : d ∈ ds.reverse := by rw [hr]; exact List.mem_cons_self d tl
          simpa using hmemr
        exact List.all_eq_true.mp h d hmem
      simp [List.dropWhile_cons, digit_not_ws d hd]
  rw [trimChars, h1, h2, List.reverse_reverse]

theorem decimalNumeralTest_digits (ds : List Char) (hne : ds ≠ [])
    (h : ds.all isDigitChar = true) :
    decimalNumeralTest (String.mk ds) = true := by
  rw [decimalNumeralTest]
  cases ds with
  | nil => exact absurd rfl hne
  | cons d tl =>
    simp only [List.all_cons, Bool.and_eq_true] at h
    have hd : d ≠ '-' := isDigitChar_ne d '-' h.1 (by decide)
    simp only [String.toList, if_neg hd]
    rw [List.span_eq_take_drop]
    rw [show ((d :: tl).takeWhile isDigitChar) = d :: tl from
      all_digits_takeWhile _ (by simp [h.1, h.2])]
    rw [show ((d :: tl).dropWhile isDigitChar) = [] from
      all_digits_dropWhile _ (by simp [h.1, h.2])]
    simp

theorem jsBigIntOfString_digits (ds : List Char) (hne : ds ≠ [])
    (h : ds.all isDigitChar = true) :
    jsBigIntOfString (String.mk ds) = .ok ((digitsVal ds : Nat) : Int) := by
  rw [jsBigIntOfString]
  simp only [String.toList]
  rw [trimChars_digits ds h]
  cases ds with
  | nil => exact absurd rfl hne
  | cons d tl =>
    simp only [List.all_cons, Bool.and_eq_true] at h
    have hdm : d ≠ '-' := isDigitChar_ne d '-' h.1 (by decide)
    have hdp : d ≠ '+' := isDigitChar_ne d '+' h.1 (by decide)
    dsimp only
    rw [if_neg hdm, if_neg hdp]
    cases tl with
    | nil => simp [h.1]
    | cons x tl2 =>
      simp only [List.all_cons, Bool.and_eq_true] at h
      have hx1 : x ≠ 'x' := isDigitChar_ne x 'x' h.2.1 (by decide)
      have hx2 : x ≠ 'X' := isDigitChar_ne x 'X' h.2.1 (by decide)
      dsimp only
      rw [if_neg (by simp [hx1, hx2])]
      rw [if_pos (show (d :: x :: tl2).all isDigitChar = true by
        simp [h.1, h.2.1, h.2.2])]

theorem startsWithTimestamp_digits (ds : List Char) (hne : ds ≠ [])
    (h : ds.all isDigitChar = true) :
    startsWithTimestamp (String.mk ds) = false := by
  cases ds with
  | nil => exact absurd rfl hne
  | cons d tl =>
    simp only [List.all_cons, Bool.and_eq_true] at h
    have hd : d ≠ 'T' := isDigitChar_ne d 'T' h.1 (by decide)
    simp [startsWithTimestamp, charsPrefix, String.toList]
    intro he
    exact absurd he.symm hd

theorem extractFromObj_digit_string_cons (k : String) (ds : List Char)
    (rest : List (String × JSValue)) (hne : ds ≠ []) (h : ds.all isDigitChar = true) :
    extractFromObj ((k, .str (String.mk ds)) :: rest) =
      (extractFromObj rest).map (fun r => ((digitsVal ds : Nat) : Int) :: r) := by
  have hv : isValid (.str (String.mk ds)) = true := by
    simp [isValid, decimalNumeralTest_digits ds hne h]
  simp only [extractFromObj, hv, Bool.not_true, Bool.false_eq_true, if_false,
    startsWithTimestamp_digits ds hne h, jsBigIntOfString_digits ds hne h]
  cases h2 : extractFromObj rest <;> simp [h2, Except.map]

theorem extractFromObj_int_num_cons (k : String) (n : Int)
    (rest : List (String × JSValue)) :
    extractFromObj ((k, .num (n : Rat)) :: rest) =
      (extractFromObj rest).map (fun r => n :: r) := by
  cases h2 : extractFromObj rest <;>
    simp [extractFromObj, isValid, Rat.den_intCast, Rat.num_intCast, h2, Except.map]

theorem extractFromObj_bool_cons (k : String) (b : Bool)
    (rest : List (String × JSValue)) :
    extractFromObj ((k, .bool b) :: rest) =
      (extractFromObj rest).map (fun r => (if b then 1 else 0) :: r) := by
  cases b <;> cases h2 : extractFromObj rest <;>
    simp [extractFromObj, isValid, h2, Except.map]

theorem extractFromObj_date_cons (k : String) (ms : Int)
    (rest : List (String × JSValue)) :
    extractFromObj ((k, .date ms) :: rest) =
      (extractFromObj rest).map (fun r => ms :: r) := by
  cases h2 : extractFromObj rest <;>
    simp [extractFromObj, isValid, Rat.den_intCast, Rat.num_intCast, h2, Except.map]

theorem extractValuesGo_timestamp (f : Nat) (s i : Nat) (rest : List JSValue) :
    extractValuesGo (f + 1) (.str (tsString s i) :: rest) =
      (extractValuesGo f rest).map (fun r =>
        .str (natToDecimalString s) :: .str (natToDecimalString i) :: r) := by
  simp only [extractValuesGo, startsWithTimestamp_tsString, digitRuns_tsString, if_true]
  cases h : extractValuesGo f rest <;> simp [h, Except.map]

theorem extractMetricsFromDocument_timestamp (k : String) (s i : Nat) :
    extractMetricsFromDocument [(k, .str (tsString s i))] =
      .ok [.str (natToDecimalString s), .str (natToDecimalString i)] := by
  unfold extractMetricsFromDocument
  show extractValuesGo (3 + 1) [JSValue.str (tsString s i)] = _
  rw [extractValuesGo_timestamp]
  rw [show extractValuesGo 3 [] = .ok [] from rfl]
  rfl
/-- Claim C8 as amended.  A Timestamp leaf expands to exactly two consecutive
base entries in the order (seconds, ordinal), universally: for every
seconds/ordinal pair and every position among the flattened entries, the
second-draft `extractFromObj` emits exactly the two BigInts seconds-then-ordinal
for that leaf, and the first-draft `extractMetricsFromDocument` yields exactly
the two digit-run strings seconds-then-ordinal.  Consequently a chunk whose
reference holds a single Timestamp leaf passes the first-draft count check
*only* with declared `N_metrics = 2`: for every declared count, within the
`1_000_000` bound the count 2 proceeds past the check (to the `ReferenceError`
of decompressor.js:59) and every other count is rejected with
`MetricsCountMismatch`, while counts above the bound raise `ChunkTooLarge`.
Every other kept leaf whose value is integral — integral numbers, booleans,
dates and digit strings — emits exactly one entry.  (A kept *fractional* leaf
such as the string `"1.5"` raises instead of emitting one entry; see the
counterexample.) -/
theorem timestamp_expansion_two_entries_seconds_first :
    (∀ (k : String) (s i : Nat) (rest : List (String × JSValue)),
        extractFromObj ((k, .str (tsString s i)) :: rest) =
          (extractFromObj rest).map (fun r => (s : Int) :: (i : Int) :: r)) ∧
    (∀ (pre : List (String × JSValue)) (k : String) (s i : Nat)
        (rest : List (String × JSValue)),
        extractFromObj (pre ++ (k, .str (tsString s i)) :: rest) =
          (extractFromObj pre).bind (fun r1 =>
            (extractFromObj rest).map (fun r2 => r1 ++ (s : Int) :: (i : Int) :: r2))) ∧
    (∀ (k : String) (s i : Nat),
        extractMetricsFromDocument [(k, .str (tsString s i))] =
          .ok [.str (natToDecimalString s), .str (natToDecimalString i)]) ∧
    (∀ b0 b1 b2 b3 : Nat,
        uncompress [16, 0, 0, 0, 17, 116, 0, 3, 0, 0, 0, 0, 241, 83, 101, 0,
            b0, b1, b2, b3, 1, 0, 0, 0, 5, 3] =
          if 1000000 < b0 + b1 * 2 ^ 8 + b2 * 2 ^ 16 + b3 * 2 ^ 24 then
            .error .chunkTooLarge
          else if b0 + b1 * 2 ^ 8 + b2 * 2 ^ 16 + b3 * 2 ^ 24 = 2 then
            .error .referenceErrorData
          else .error .metricsCountMismatch) ∧
    (∀ (k : String) (n : Int) (rest : List (String × JSValue)),
        extractFromObj ((k, .num (n : Rat)) :: rest) =
          (extractFromObj rest).map (fun r => n :: r)) ∧
    (∀ (k : String) (b : Bool) (rest : List (String × JSValue)),
        extractFromObj ((k, .bool b) :: rest) =
          (extractFromObj rest).map (fun r => (if b then 1 else 0) :: r)) ∧
    (∀ (k : String) (ms : Int) (rest : List (String × JSValue)),
        extractFromObj ((k, .date ms) :: rest) =
          (extractFromObj rest).map (fun r => ms :: r)) ∧
    (∀ (k : String) (ds : List Char) (rest : List (String × JSValue)),
        ds ≠ [] → ds.all isDigitChar = true →
        extractFromObj ((k, .str (String.mk ds)) :: rest) =
          (extractFromObj rest).map (fun r => ((digitsVal ds : Nat) : Int) :: r)) := by
  refine ⟨extractFromObj_timestamp_cons, extractFromObj_timestamp_position,
    extractMetricsFromDocument_timestamp, ts_chunk_family,
    extractFromObj_int_num_cons, extractFromObj_bool_cons, extractFromObj_date_cons,
    fun k ds rest hne h => extractFromObj_digit_string_cons k ds rest hne h⟩

/-- Witness for the amended claim C8, instantiating each quantified family at
concrete inputs: the Timestamp leaf with seconds 1700000000 and ordinal 3
expands to the two entries `[1700000000, 3]`; the digit string `"42"` emits
the single entry 42; and the one-Timestamp-leaf chunk passes the count check
with declared count 2 (reaching the `ReferenceError`) but is rejected with
`MetricsCountMismatch` with declared count 3. -/
theorem timestamp_expansion_two_entries_seconds_first_witness :
    extractFromObj [(("t" : String), .str ("Timestamp(1700000000, 3)"))] =
      .ok [1700000000, 3] ∧
    extractFromObj [(("x" : String), .str ("42"))] = .ok [42] ∧
    uncompress [16, 0, 0, 0, 17, 116, 0, 3, 0, 0, 0, 0, 241, 83, 101, 0,
      2, 0, 0, 0, 1, 0, 0, 0, 5, 3] = .error .referenceErrorData ∧
    uncompress [16, 0, 0, 0, 17, 116, 0, 3, 0, 0, 0, 0, 241, 83, 101, 0,
      3, 0, 0, 0, 1, 0, 0, 0, 5, 3] = .error .metricsCountMismatch := by
  refine ⟨?_, ?_, ?_, ?_⟩
  · have h := timestamp_expansion_two_entries_seconds_first.1 ("t") 1700000000 3 []
    rw [show ("Timestamp(1700000000, 3)" : String) = tsString 1700000000 3 from rfl]
    rw [h]
    rfl
  · have h := timestamp_expansion_two_entries_seconds_first.2.2.2.2.2.2.2
      ("x") ['4', '2'] [] (by decide) (by decide)
    rw [show ("42" : String) = String.mk ['4', '2'] from rfl, h]
    rfl
  · have h := timestamp_expansion_two_entries_seconds_first.2.2.2.1 2 0 0 0
    rw [h]
    norm_num
  · have h := timestamp_expansion_two_entries_seconds_first.2.2.2.1 3 0 0 0
    rw [h]
    norm_num

/-! ## Claim C9: dropped leaves -/

/-- Claim C9.  The claim states that a Null leaf is dropped with no error.
In fact both flatteners crash on it: `stripNonNumericFields`
(decompressor.js:107-124) and `flattenObject` (decompressor.js:273-282) read
`value.constructor` on the `null` value and throw `TypeError`.  Only the
second-draft `isValid` — which is never reached, `flattenObject` running
first — would have classified `null` as invalid (dropped). -/
theorem stripNonNumericFields_throws_on_null_leaf :
    stripNonNumericFields [(("a" : String), JSValue.null)] = .error .typeError ∧
    flattenObject [(("a" : String), JSValue.null)] = .error .typeError ∧
    isValid JSValue.null = false := by
  exact ⟨by rfl, by rfl, by rfl⟩

/-! ## Claim C10: totality of the C-string scan -/

/-- Claim C10 counterexample.  The claim states that for *every* offset with
no NUL at or after it the scan returns `buffer.length + 1`.  For an offset
beyond the end of the buffer the loop body never runs and the scan returns
`offset + 1` instead: on the empty buffer at offset 5 it returns 6, not
`0 + 1`. -/
theorem indexAfterCString_offset_past_end :
    indexAfterCString [] 5 = 6 ∧ (6 : Nat) ≠ List.length ([] : List Nat) + 1 := by
  exact ⟨by rfl, by decide⟩

theorem indexAfterCStringGo_eq (l : List Nat) :
    ∀ i, indexAfterCStringGo l i =
      match l.findIdx? (· = 0) with
      | some k => i + k + 1
      | none => i + l.length + 1 := by
  induction l with
  | nil => intro i; simp [indexAfterCStringGo]
  | cons b rest ih =>
    intro i
    by_cases hb : b = 0
    · subst hb
      simp [indexAfterCStringGo, List.findIdx?_cons, List.findIdx?_succ]
    · have hbd : (decide (b = 0)) = false := by simp [hb]
      simp only [indexAfterCStringGo, List.findIdx?_cons, hbd, if_neg hb, ih (i + 1),
        List.findIdx?_succ, ne_eq, ite_not, if_false]
      match h : rest.findIdx? (· = 0) with
      | some k => simp [h]; omega
      | none => simp [h, List.length_cons]; omega

theorem indexAfterCString_eq_spec (buffer : List Nat) (offset : Nat) :
    indexAfterCString buffer offset = indexAfterCStringSpec buffer offset := by
  rw [indexAfterCString, indexAfterCStringSpec, indexAfterCStringGo_eq]
  cases h : (buffer.drop offset).findIdx? (· = 0) with
  | some k => simp [h]
  | none =>
    simp [h, List.length_drop, Nat.max_def]
    split <;> omega

/-- Claim C10 as amended.  The scan is total: it returns one past the first
NUL at or after `offset` when one exists, and `max offset buffer.length + 1`
when none does (which is `buffer.length + 1` whenever `offset` is within the
buffer).  Consequently the parser accepts an element whose key is never
NUL-terminated, consuming the remainder of the buffer as the key: the 7-byte
document declaring a Null element with unterminated key bytes `ab` parses
successfully to `{ab: null}`. -/
theorem indexAfterCString_total_characterization :
    (∀ buffer offset, indexAfterCString buffer offset = indexAfterCStringSpec buffer offset) ∧
    parseBSON [7, 0, 0, 0, 10, 97, 98] false =
      .ok (.doc [(("ab" : String), JSValue.null)]) := by
  exact ⟨indexAfterCString_eq_spec, by rfl⟩
